import Mathlib

/-!
# Verification of the yt-dlp extractor modules

Shallow embedding of the extractor code in
`yt_dlp/extractor/extrememusic.py`, `yt_dlp/extractor/ruutu.py` and
`yt_dlp/extractor/librofm.py`, together with proofs of the specified
properties.

Strings are modelled as `List Char`.  The anchored Python regular
expressions used by the stream-URL rewriters are modelled by explicit
scanning functions: `re.match(r'^(.*)ext(\?.*)?$', s)` succeeds exactly
when some split `s = a ++ ext ++ q` exists with `q` empty or starting
with a question mark, and the greedy `(.*)` group of `re.sub` captures
the longest such `a` (the rightmost valid occurrence of `ext`).  The
end anchor is modelled as true end-of-string; this is exact for inputs
without a trailing newline, which covers every URL.
-/

namespace YtDlp

/-- Strings of the embedded program. -/
abbrev Str := List Char

/-- Shorthand to spell embedded strings. -/
def str (s : String) : Str := s.toList

/-- The tail allowed after the extension by `(\?.*)?$`: the empty string
or a query string beginning with a question mark. -/
def qTailOk : Str → Bool
  | [] => true
  | c :: _ => c == '?'

/-- Test that `ext` occurs at the front of `r` and what follows is empty or a query
string, i.e. `r` matches `ext(\?.*)?$`. -/
def extAt (ext r : Str) : Bool :=
  ext.isPrefixOf r && qTailOk (r.drop ext.length)

/-- The string `s` matches `ext(\?.*)?$` starting at position `i`. -/
def validExtAt (ext s : Str) (i : Nat) : Bool :=
  extAt ext (s.drop i)

/-- Fold that keeps the last index in the list satisfying `p`. -/
def pickLast (p : Nat → Bool) : List Nat → Option Nat → Option Nat
  | [], acc => acc
  | i :: is, acc => pickLast p is (if p i then some i else acc)

/-- Position captured by the greedy `(.*)` group of the anchored pattern
`^(.*)ext(\?.*)?$` on `s`: the last position at which `ext` occurs
followed by nothing or a query string; `none` when the pattern does not
match at all. -/
def lastExtPos (ext s : Str) : Option Nat :=
  pickLast (validExtAt ext s) (List.range (s.length + 1)) none

/-- Test that `ext` never occurs in `q` followed by end or a query. -/
def noExtOccur (ext q : Str) : Bool :=
  (List.range (q.length + 1)).all (fun i => ! validExtAt ext q i)

/-- The literal `.m3u8`. -/
def extM3u8 : Str := ['.', 'm', '3', 'u', '8']

/-- The literal `.mpd`. -/
def extMpd : Str := ['.', 'm', 'p', 'd']

/-- The literal `/DASH.mpd` used both in the canonical-form test
`^(.*)\/DASH\.mpd(\?.*)?$` and in the rewriting. -/
def dashCanonical : Str := ['/', 'D', 'A', 'S', 'H', '.', 'm', 'p', 'd']

/-- The literal `/HLS/`. -/
def hlsDirMark : Str := ['/', 'H', 'L', 'S', '/']

/-- The literal `/HLS/128_v4.m3u8` substituted by the HLS rewriter. -/
def hlsInsert : Str :=
  ['/', 'H', 'L', 'S', '/', '1', '2', '8', '_', 'v', '4', '.', 'm', '3', 'u', '8']

/-- Matches the `(_v\d)?\.m3u8(\?.*)?$` part of the canonical HLS
pattern when the optional `_v<digit>` group is taken: the string starts
with `_v`, then one digit, then `.m3u8` plus an optional query. -/
def vTagOk (r : Str) : Bool :=
  r.take 2 == ['_', 'v'] && ((r.drop 2).headD ' ').isDigit &&
    extAt extM3u8 (r.drop 3)

/-- The canonical HLS pattern `\/HLS\/\d{1,}(_v\d)?\.m3u8(\?.*)?$`
matches `s` at position `i`. -/
def canonicalHlsAt (s : Str) (i : Nat) : Bool :=
  hlsDirMark.isPrefixOf (s.drop i) &&
    (decide (((s.drop i).drop 5).takeWhile Char.isDigit ≠ []) &&
      (extAt extM3u8 (((s.drop i).drop 5).dropWhile Char.isDigit) ||
        vTagOk (((s.drop i).drop 5).dropWhile Char.isDigit)))

/-- Success of `re.match(r'^(.*)\/HLS\/\d{1,}(_v\d)?\.m3u8(\?.*)?$', s)`. -/
def isCanonicalHls (s : Str) : Bool :=
  (List.range (s.length + 1)).any (fun i => canonicalHlsAt s i)

/-- Success of `re.match(r'^(.*)\/DASH\.mpd(\?.*)?$', s)`. -/
def isCanonicalDash (s : Str) : Bool :=
  (List.range (s.length + 1)).any (fun i => validExtAt dashCanonical s i)

namespace ExtremeMusic

/-- Model of `ExtremeMusicAlbumIE._get_hls_stream_url`: `None` unless the URL ends
in `.m3u8` plus an optional query; unchanged when it already matches the
canonical `/HLS/<digits>[_v<digit>].m3u8` shape; otherwise the result of
`re.sub(r'^(.*)\.m3u8(\?.*)?$', r'\1/HLS/128_v4.m3u8', url)` (note that
the replacement does not reference group 2, so the query is dropped). -/
def getHlsStreamUrl : Option Str → Option Str
  | none => none
  | some s =>
    match lastExtPos extM3u8 s with
    | none => none
    | some i =>
      if isCanonicalHls s then some s
      else some (s.take i ++ hlsInsert)

/-- Model of `ExtremeMusicAlbumIE._get_dash_stream_url`: `None` unless the URL ends
in `.mpd` plus an optional query; unchanged when it already matches
`/DASH.mpd` plus an optional query; otherwise the result of
`re.sub(r'^(.*)\.mpd(\?.*)?$', r'\1/DASH.mpd\2', url)`, which keeps the
query string. -/
def getDashStreamUrl : Option Str → Option Str
  | none => none
  | some s =>
    match lastExtPos extMpd s with
    | none => none
    | some i =>
      if isCanonicalDash s then some s
      else some (s.take i ++ dashCanonical ++ s.drop (i + extMpd.length))

end ExtremeMusic

/-! ## Library helpers shared by the extractors -/

/-- Scheme alternatives accepted by the URL-validation pattern
`(?:https?|rt(?:m(?:pt?[es]?|fp)|sp[su]?)|mms|ftps?)`. -/
def urlSchemes : List Str :=
  [str "http", str "https", str "rtmp", str "rtmpt", str "rtmpe", str "rtmps",
   str "rtmpte", str "rtmpts", str "rtmfp", str "rtsp", str "rtsps", str "rtspu",
   str "mms", str "ftp", str "ftps"]

/-- Test for the URL-shape pattern: `//` optionally preceded by a known
scheme and a colon. -/
def isUrlLike (s : Str) : Bool :=
  (str "//").isPrefixOf s ||
    urlSchemes.any (fun sch => (sch ++ str "://").isPrefixOf s)

/-- Modelled from the spec: the library helper `url_or_none` (its source
is not under `src/`) keeps a string only when it matches the URL shape
above and returns `None` otherwise; absent input propagates. -/
def url_or_none : Option Str → Option Str
  | none => none
  | some s => if isUrlLike s then some s else none

instance {ε : Type u} {α : Type v} [DecidableEq ε] [DecidableEq α] :
    DecidableEq (Except ε α) := fun
  | Except.error a, Except.error b =>
    if h : a = b then isTrue (by rw [h])
    else isFalse (by intro hc; cases hc; exact h rfl)
  | Except.error _, Except.ok _ => isFalse (by intro hc; cases hc)
  | Except.ok _, Except.error _ => isFalse (by intro hc; cases hc)
  | Except.ok a, Except.ok b =>
    if h : a = b then isTrue (by rw [h])
    else isFalse (by intro hc; cases hc; exact h rfl)

/-- Decimal rendering used by Python f-strings for integers. -/
def intStr (n : Int) : Str := (toString n).toList

/-- Decimal rendering used by Python f-strings for naturals. -/
def natStr (n : Nat) : Str := (toString n).toList

namespace ExtremeMusic

/-- One image descriptor from the `images` map of the album payload;
`width` stands for `int_or_none(image.get("width"))`, and the two URL
fields hold the raw `url` and `webp` values. -/
structure ImageDesc where
  width : Option Int
  url : Option Str
  webp : Option Str
deriving DecidableEq, Repr

/-- Thumbnail dictionary produced by the extractor; absent values are
`none`. -/
structure Thumbnail where
  id : Str
  url : Option Str
  width : Option Int
  height : Option Int
deriving DecidableEq, Repr

/-- Image-bearing part of an album or track object: the `images` map (an
insertion-ordered dict) and the three flat fallback URL fields. -/
structure ImageInfo where
  images : List (Str × List ImageDesc)
  image_detail_url : Option Str
  image_large_url : Option Str
  image_small_url : Option Str
deriving DecidableEq, Repr

/-- Model of `prepare_thumbnail` inside
`ExtremeMusicAlbumIE._collect_images`: both `w` and `h` are read from
the `width` key of the descriptor. -/
def prepare_thumbnail (image_type : Str) (image : ImageDesc) (webp : Bool) : Thumbnail :=
  let w := image.width
  let h := image.width
  let thumbId := match w with
    | some n => image_type ++ '_' :: intStr n
    | none => image_type
  let thumbId2 := if webp then thumbId ++ str "_webp" else thumbId
  let u := if webp then url_or_none image.webp else url_or_none image.url
  ⟨thumbId2, u, w, h⟩

/-- The map-shaped (primary) branch of `_collect_images`: for every
descriptor of every image category, a plain and a WebP thumbnail. -/
def primaryThumbnails (info : ImageInfo) : List Thumbnail :=
  info.images.flatMap fun p =>
    p.2.flatMap fun image =>
      [prepare_thumbnail p.1 image false, prepare_thumbnail p.1 image true]

/-- The flat-field fallback branch of `_collect_images`, deduplicating
by URL with the first occurrence winning. -/
def fallbackThumbnails (info : ImageInfo) : List Thumbnail :=
  (([(str "detail", info.image_detail_url), (str "large", info.image_large_url),
     (str "small", info.image_small_url)]).foldl
    (fun acc p =>
      match url_or_none p.2 with
      | none => acc
      | some u =>
        if acc.2.contains u then acc
        else (acc.1 ++ [⟨p.1, some u, none, none⟩], acc.2 ++ [u]))
    (([], []) : List Thumbnail × List Str)).1

/-- Model of `ExtremeMusicAlbumIE._collect_images`. -/
def collect_images (info : ImageInfo) : List Thumbnail :=
  let thumbnails := primaryThumbnails info
  if thumbnails.isEmpty then fallbackThumbnails info else thumbnails

/-- One audio asset of a track sound, with up to three delivery URLs. -/
structure Asset where
  preview_url : Option Str
  preview_url_dash : Option Str
  preview_url_hls : Option Str
deriving DecidableEq, Repr

/-- One format dictionary as assembled for an asset: the progressive
entry sets `vcodec` to the string `none`; expanded DASH/HLS formats are
produced by the external expanders. -/
structure AFormat where
  url : Str
  vcodec : Option Str
deriving DecidableEq, Repr

/-- External manifest expanders (`_extract_mpd_formats` and
`_extract_m3u8_formats`), taking the normalized URL and the video id. -/
abbrev Expander := Str → Str → List AFormat

/-- Model of `ExtremeMusicAlbumIE._extract_asset_formats`: a progressive
format when `preview_url` is a URL, then the expanded DASH formats for
the normalized `preview_url_dash`, then the expanded HLS formats for the
normalized `preview_url_hls`. -/
def extract_asset_formats (mpdE m3u8E : Expander) (video_id : Str) (asset : Asset) :
    List AFormat :=
  (match url_or_none asset.preview_url with
   | some u => [⟨u, some (str "none")⟩]
   | none => []) ++
  (match getDashStreamUrl (url_or_none asset.preview_url_dash) with
   | some u => mpdE u video_id
   | none => []) ++
  (match getHlsStreamUrl (url_or_none asset.preview_url_hls) with
   | some u => m3u8E u video_id
   | none => [])

/-- One element of `album_info["track_sounds"]`; the `id` and
`version_name` keys are accessed unconditionally by the extractor. -/
structure TrackSound where
  id : Int
  version_name : Str
  duration : Option ℚ
  assets_audio : Option Asset
deriving DecidableEq, Repr

/-- One element of `album_info["tracks"]` after the `traverse_obj`
projections (`id` via `int_or_none`, `title` via `str_or_none`, the list
fields projected to their `label` or `name` strings). -/
structure Track where
  id : Option Int
  title : Option Str
  imageInfo : ImageInfo
  keywords : List Str
  artists : List Str
  composers : List Str
  genres : List Str
  track_sound_ids : List Int
deriving DecidableEq, Repr

/-- The `album` object of the payload (playlist-level metadata). -/
structure AlbumMeta where
  title : Option Str
  description : Option Str
  imageInfo : ImageInfo
deriving DecidableEq, Repr

/-- The parsed `album-*` JSON blob. -/
structure AlbumInfo where
  track_sounds : List TrackSound
  tracks : List Track
  album : AlbumMeta
deriving DecidableEq, Repr

/-- One per-sound-version entry dictionary. -/
structure SoundEntry where
  id : Str
  title : Str
  track : Str
  thumbnails : List Thumbnail
  tags : List Str
  artists : List Str
  composers : List Str
  genres : List Str
  duration : Option ℚ
  formats : Option (List AFormat)
deriving DecidableEq, Repr

/-- Failures of the album extractor: the explicit "Unable to extract
album information" error and the Python `KeyError`s raised by the
unconditional dictionary accesses. -/
inductive AlbumError where
  | missingAlbumData (album_id : Str)
  | missingTrackField
  | unknownTrackSound (sid : Int)
deriving DecidableEq, Repr

/-- Lookup in the dict built by `track_sounds[ts["id"]] = ts`; a later
element with the same id overwrites an earlier one. -/
def lookupSound (sounds : List TrackSound) (sid : Int) : Option TrackSound :=
  sounds.foldl (fun acc ts => if ts.id == sid then some ts else acc) none

/-- Model of the per-sound-version entry construction in
`ExtremeMusicAlbumIE._real_extract`: the `id` and `title` of the track
entry are accessed unconditionally, the sound is looked up by id, and
the composite id, suffixed titles, duration and formats are filled in. -/
def mkSoundEntry (mpdE m3u8E : Expander) (sounds : List TrackSound)
    (track : Track) (sid : Int) : Except AlbumError SoundEntry :=
  match track.id, track.title with
  | some tid, some title =>
    match lookupSound sounds sid with
    | none => Except.error (AlbumError.unknownTrackSound sid)
    | some ts =>
      Except.ok
        { id := intStr tid ++ str "-" ++ intStr ts.id
          title := title ++ str " (" ++ ts.version_name ++ str ")"
          track := title ++ str " (" ++ ts.version_name ++ str ")"
          thumbnails := collect_images track.imageInfo
          tags := track.keywords
          artists := track.artists
          composers := track.composers
          genres := track.genres
          duration := ts.duration
          formats := ts.assets_audio.map
            (extract_asset_formats mpdE m3u8E (intStr tid ++ str "-" ++ intStr ts.id)) }
  | _, _ => Except.error AlbumError.missingTrackField

/-- Sequential fail-fast traversal matching the extractor's loops. -/
def mapExcept (f : α → Except ε β) : List α → Except ε (List β)
  | [] => Except.ok []
  | x :: xs =>
    match f x with
    | Except.error e => Except.error e
    | Except.ok y =>
      match mapExcept f xs with
      | Except.error e => Except.error e
      | Except.ok ys => Except.ok (y :: ys)

/-- Playlist result of the album extractor. -/
structure AlbumResult where
  id : Str
  title : Option Str
  description : Option Str
  thumbnails : List Thumbnail
  entries : List SoundEntry
deriving DecidableEq, Repr

/-- Model of `ExtremeMusicAlbumIE._real_extract`, starting from the
located `album-*` JSON blob (`none` when no such key exists in the page
config). -/
def album_real_extract (mpdE m3u8E : Expander) (album_id : Str)
    (album_info : Option AlbumInfo) : Except AlbumError AlbumResult :=
  match album_info with
  | none => Except.error (AlbumError.missingAlbumData album_id)
  | some info =>
    match mapExcept
        (fun tr => mapExcept (mkSoundEntry mpdE m3u8E info.track_sounds tr) tr.track_sound_ids)
        info.tracks with
    | Except.error e => Except.error e
    | Except.ok nested =>
      Except.ok
        { id := album_id
          title := info.album.title
          description := info.album.description
          thumbnails := collect_images info.album.imageInfo
          entries := nested.flatten }

end ExtremeMusic

namespace Ruutu

/-- One value of the `streamUrls` map. -/
structure StreamFmt where
  withCredentials : Bool
  url : Option Str
deriving DecidableEq, Repr

/-- One format dictionary of the video extractor. -/
structure RFormat where
  format_id : Option Str
  url : Option Str
  acodec : Option Str
  vcodec : Option Str
  preference : Option Int
deriving DecidableEq, Repr

/-- One subtitle track dictionary. -/
structure SubTrack where
  name : Option Str
  url : Str
deriving DecidableEq, Repr

/-- Subtitle mapping from language code to tracks, as an ordered
association list. -/
abbrev Subs := List (Str × List SubTrack)

/-- One element of `media["subtitles"]`. -/
structure MediaSub where
  language : Str
  name : Option Str
  url : Str
deriving DecidableEq, Repr

/-- The `clip.playback.media` object. -/
structure RMedia where
  streamUrls : List (Str × Option StreamFmt)
  subtitles : List MediaSub
deriving DecidableEq, Repr

/-- Modelled from the spec: `InfoExtractor._merge_subtitles` (not under
`src/`) merges subtitle dictionaries keyed by language code, appending
the new tracks of an already present language. -/
def mergeSubs (target new : Subs) : Subs :=
  new.foldl
    (fun t p =>
      if t.any (fun q => q.1 == p.1) then
        t.map (fun q => if q.1 == p.1 then (q.1, q.2 ++ p.2) else q)
      else t ++ [p])
    target

/-- Dict comprehension over `media["subtitles"]`; a later element with
the same language overwrites an earlier one. -/
def subsDict (l : List MediaSub) : Subs :=
  l.foldl
    (fun acc s =>
      if acc.any (fun q => q.1 == s.language) then
        acc.map (fun q => if q.1 == s.language then (q.1, [⟨s.name, s.url⟩]) else q)
      else acc ++ [(s.language, [⟨s.name, s.url⟩])])
    []

/-- Stream-variant names dispatched to the HLS expander. -/
def hlsNames : List Str :=
  [str "android", str "apple", str "audioHls", str "cast", str "samsung", str "webHls"]

/-- Direct format built for a variant that is neither HLS-family nor
`dash`, with the `audioMp3` and `http` special cases. -/
def directFormat (name u : Str) : RFormat :=
  if name == str "audioMp3" then ⟨some name, some u, some (str "mp3"), some (str "mp3"), none⟩
  else if name == str "http" then ⟨some name, some u, none, none, some (-1001)⟩
  else ⟨some name, some u, none, none, none⟩

/-- Accumulator of the variant loop. -/
structure StepState where
  formats : List RFormat
  subs : Subs
  seen : List Str
deriving DecidableEq, Repr

/-- One iteration of the `streamUrls` loop in
`RuutuIE._extract_formats_and_subtitles`: skip falsy and
credential-gated variants, skip missing, invalid and already-seen URLs,
then dispatch on the variant name. -/
def streamStep (hlsE : Str → List RFormat × Subs) (dashE : Str → List RFormat)
    (st : StepState) (e : Str × Option StreamFmt) : StepState :=
  match e.2 with
  | none => st
  | some fmt =>
    if fmt.withCredentials then st
    else
      match url_or_none fmt.url with
      | none => st
      | some u =>
        if st.seen.contains u then st
        else if hlsNames.contains e.1 then
          ⟨st.formats ++ (hlsE u).1, mergeSubs st.subs (hlsE u).2, st.seen ++ [u]⟩
        else if e.1 == str "dash" then
          ⟨st.formats ++ dashE u, st.subs, st.seen ++ [u]⟩
        else
          ⟨st.formats ++ [directFormat e.1 u], st.subs, st.seen ++ [u]⟩

/-- Model of `RuutuIE._extract_formats_and_subtitles`; `hlsE` and `dashE`
stand for the external manifest expanders, applied to a stream URL and
the video id. -/
def extract_formats_and_subtitles (hlsE : Str → Str → List RFormat × Subs)
    (dashE : Str → Str → List RFormat) (video_id : Str) (media : RMedia) :
    List RFormat × Subs :=
  let st := media.streamUrls.foldl
    (streamStep (fun u => hlsE u video_id) (fun u => dashE u video_id))
    ⟨[], [], []⟩
  (st.formats, mergeSubs st.subs (subsDict media.subtitles))

/-- One chapter dictionary. -/
structure Chapter where
  start_time : ℚ
  end_time : ℚ
  title : Str
deriving DecidableEq, Repr

/-- Chapter synthesis of `RuutuIE._real_extract`: a single synthetic
"End Credits" chapter exactly when both the runtime and the end-credits
start offset are known. -/
def mkChapters (duration end_credits : Option ℚ) : List Chapter :=
  match duration with
  | none => []
  | some dur =>
    match end_credits with
    | none => []
    | some ecs => [⟨ecs, dur, str "End Credits"⟩]

/-- Python `min(list, default=None)`. -/
def minTimestamp : List Int → Option Int
  | [] => none
  | x :: xs => some (xs.foldl min x)

/-- Modelled from the spec: `InfoExtractor.report_drm` (not under `src/`)
raises the dedicated "DRM protected" signal for the given video id. -/
inductive RuutuError where
  | drmProtected (video_id : Str)
deriving DecidableEq, Repr

/-- The fields of the result dictionary that the claims refer to. -/
structure RuutuResult where
  id : Str
  duration : Option ℚ
  chapters : List Chapter
  timestamp : Option Int
  formats : List RFormat
  subtitles : Subs
deriving DecidableEq, Repr

/-- The parts of the downloaded `v2/media` JSON consumed by the claims:
`clip.playback.media`, the `clip.playback.drm.enabled` flag, the
runtime, the end-credits offset and the parsed `online_rights` start
dates.  JSON numbers are modelled as rationals; no arithmetic is
performed on them. -/
structure RuutuJson where
  media : RMedia
  drmEnabled : Bool
  runtime : Option ℚ
  endCredits : Option ℚ
  onlineRightsStarts : List Int
deriving DecidableEq, Repr

/-- Model of `RuutuIE._real_extract`: formats and subtitles are
extracted first; with no formats and the DRM flag set, the dedicated DRM
signal is raised; otherwise the result carries the synthesized chapters
and the earliest online-rights timestamp. -/
def ruutu_real_extract (hlsE : Str → Str → List RFormat × Subs)
    (dashE : Str → Str → List RFormat) (video_id : Str) (vj : RuutuJson) :
    Except RuutuError RuutuResult :=
  let fs := extract_formats_and_subtitles hlsE dashE video_id vj.media
  if fs.1 = [] ∧ vj.drmEnabled = true then
    Except.error (RuutuError.drmProtected video_id)
  else
    Except.ok
      { id := video_id
        duration := vj.runtime
        chapters := mkChapters vj.runtime vj.endCredits
        timestamp := minTimestamp vj.onlineRightsStarts
        formats := fs.1
        subtitles := fs.2 }

end Ruutu

namespace LibroFm

/-- One element of the download manifest's `parts` list. -/
structure Part where
  url : Str
  size_bytes : Int
deriving DecidableEq, Repr

/-- One format dictionary of `LibroFmIE._process_part`. -/
structure LFormat where
  url : Str
  format : Str
  filesize : Int
  user_agent : Str
deriving DecidableEq, Repr

/-- The download User-Agent header attached to every part format. -/
def userAgentDownload : Str :=
  str "AndroidDownloadManager/11 (Linux; U; Android 11; Android SDK built for x86_64 Build/RSR1.210722.013.A2)"

/-- Model of `LibroFmIE._process_part`. -/
def process_part (p : Part) : List LFormat :=
  [⟨p.url, str "zip archive of mp3 files", p.size_bytes, userAgentDownload⟩]

/-- Modelled from the spec: the library helper `join_nonempty` (not
under `src/`) joins the non-empty values with the delimiter. -/
def join_nonempty (vals : List (Option Str)) (delim : Str) : Str :=
  List.intercalate delim ((vals.filterMap id).filter (fun v => decide (v ≠ [])))

/-- One playlist entry, with the fields the claims refer to: the
composite id, the suffixed title and the part's formats. -/
structure LEntry where
  id : Str
  title : Str
  formats : List LFormat
deriving DecidableEq, Repr

/-- Result of the audiobook extractor: a single item or a `multi_video`
playlist. -/
inductive LibroResult where
  | single (e : LEntry)
  | multi (entries : List LEntry)
deriving DecidableEq, Repr

/-- Model of the entry comprehension in `LibroFmIE._real_extract` for the
1-indexed part `i`. -/
def mkEntry (isbn title : Str) (i : Nat) (p : Part) : LEntry :=
  ⟨isbn ++ str "-" ++ natStr i,
   join_nonempty [some title, some (str "(Part " ++ natStr i ++ str ")")] (str " "),
   process_part p⟩

/-- Model of the tail of `LibroFmIE._real_extract`: the manifest parts
become 1-indexed entries; a single entry collapses into a top-level item
whose id and title are the audiobook's own; `title` is the mandatory
`audiobook_data["title"]`. -/
def libro_real_extract (isbn title : Str) (parts : List Part) : LibroResult :=
  let entries := parts.enum.map (fun ip => mkEntry isbn title (ip.1 + 1) ip.2)
  match entries with
  | [e] => LibroResult.single ⟨isbn, title, e.formats⟩
  | es => LibroResult.multi es

end LibroFm

/-! ## Lemmas about the greedy-match machinery -/

theorem isPrefixOf_append (l t : Str) : l.isPrefixOf (l ++ t) = true := by
  induction l with
  | nil => simp
  | cons c cs ih => simp [List.isPrefixOf, ih]

theorem pickLast_eq_acc {p : Nat → Bool} :
    ∀ {l : List Nat} {acc : Option Nat}, (∀ i ∈ l, p i = false) →
      pickLast p l acc = acc := by
  intro l
  induction l with
  | nil => intro acc _; rfl
  | cons j t ih =>
    intro acc h
    have hj : p j = false := h j (by simp)
    simp only [pickLast, hj, Bool.false_eq_true, if_false]
    exact ih fun i hi => h i (by simp [hi])

theorem pickLast_acc_some {p : Nat → Bool} :
    ∀ {l : List Nat} {x : Nat}, pickLast p l (some x) ≠ none := by
  intro l
  induction l with
  | nil => intro x; simp [pickLast]
  | cons j t ih =>
    intro x
    simp only [pickLast]
    split
    · exact ih
    · exact ih

theorem pickLast_ne_none {p : Nat → Bool} :
    ∀ {l : List Nat} {acc : Option Nat} {i : Nat}, i ∈ l → p i = true →
      pickLast p l acc ≠ none := by
  intro l
  induction l with
  | nil => intro acc i h; simp at h
  | cons j t ih =>
    intro acc i hmem hp
    rcases List.mem_cons.mp hmem with hj | ht
    · subst hj
      simp only [pickLast, hp, if_true]
      exact pickLast_acc_some
    · exact ih ht hp

theorem pickLast_some_sat {p : Nat → Bool} :
    ∀ {l : List Nat} {acc : Option Nat} {i : Nat},
      pickLast p l acc = some i → acc = some i ∨ p i = true := by
  intro l
  induction l with
  | nil => intro acc i h; exact Or.inl h
  | cons j t ih =>
    intro acc i h
    simp only [pickLast] at h
    rcases ih h with h2 | h2
    · by_cases hj : p j = true
      · simp only [hj, if_true] at h2
        right; rw [← Option.some.inj h2]; exact hj
      · simp only [Bool.not_eq_true] at hj
        simp only [hj, Bool.false_eq_true, if_false] at h2
        exact Or.inl h2
    · exact Or.inr h2

theorem pickLast_range_max {p : Nat → Bool} :
    ∀ {n : Nat} {acc : Option Nat} {i : Nat}, p i = true → i < n →
      (∀ j, j < n → p j = true → j ≤ i) →
      pickLast p (List.range n) acc = some i := by
  intro n
  induction n with
  | zero => intro acc i _ h; omega
  | succ n ih =>
    intro acc i hp hlt hmax
    have hsplit : List.range (n + 1) = List.range n ++ [n] := by
      simpa using List.range_succ n
    have happ : ∀ (l1 l2 : List Nat) (a : Option Nat),
        pickLast p (l1 ++ l2) a = pickLast p l2 (pickLast p l1 a) := by
      intro l1
      induction l1 with
      | nil => intro l2 a; rfl
      | cons x t ih1 =>
        intro l2 a
        simp only [List.cons_append, pickLast]
        exact ih1 l2 _
    rw [hsplit, happ]
    by_cases hi : i = n
    · subst hi
      simp [pickLast, hp]
    · have hin : i < n := by omega
      have hpn : p n = false := by
        by_contra hc
        simp only [Bool.not_eq_false] at hc
        have := hmax n (by omega) hc
        omega
      simp only [pickLast, hpn, Bool.false_eq_true, if_false]
      exact ih hp hin fun j hj hpj => hmax j (by omega) hpj

theorem validExtAt_lt_length {ext s : Str} {i : Nat} (hne : ext ≠ [])
    (h : validExtAt ext s i = true) : i < s.length := by
  rcases ext with _ | ⟨c, t⟩
  · exact absurd rfl hne
  · by_contra hc
    have hdrop : s.drop i = [] := List.drop_eq_nil_of_le (by omega)
    simp [validExtAt, extAt, hdrop] at h

theorem lastExtPos_ne_none {ext s : Str} {j : Nat} (hne : ext ≠ [])
    (h : validExtAt ext s j = true) : lastExtPos ext s ≠ none := by
  have hj : j ∈ List.range (s.length + 1) := by
    rw [List.mem_range]
    have := validExtAt_lt_length hne h
    omega
  exact pickLast_ne_none hj h

theorem lastExtPos_sat {ext s : Str} {i : Nat}
    (h : lastExtPos ext s = some i) : validExtAt ext s i = true := by
  rcases pickLast_some_sat h with h2 | h2
  · exact absurd h2 (by simp)
  · exact h2

theorem noExtOccur_all {ext q : Str} (hne : ext ≠ [])
    (h : noExtOccur ext q = true) : ∀ m, validExtAt ext q m = false := by
  intro m
  by_cases hm : m ≤ q.length
  · have := (List.all_eq_true.mp h) m (by rw [List.mem_range]; omega)
    simpa using this
  · rcases ext with _ | ⟨c, t⟩
    · exact absurd rfl hne
    · have hdrop : q.drop m = [] := List.drop_eq_nil_of_le (by omega)
      simp [validExtAt, extAt, hdrop]

/-- On a string of the shape `a ++ ext ++ q` where `q` is a legitimate
tail and neither a straddling nor a later occurrence of `ext` exists,
the greedy group captures exactly `a`. -/
theorem lastExtPos_split {ext a q : Str} (hne : ext ≠ [])
    (hq : qTailOk q = true) (hno : noExtOccur ext q = true)
    (hstrad : ∀ k, 0 < k → k < ext.length → extAt ext (ext.drop k ++ q) = false) :
    lastExtPos ext (a ++ ext ++ q) = some a.length := by
  have hvalid : validExtAt ext (a ++ ext ++ q) a.length = true := by
    have hdrop : (a ++ ext ++ q).drop a.length = ext ++ q := by
      rw [List.append_assoc, List.drop_left]
    rw [validExtAt, hdrop, extAt]
    have hpre : ext.isPrefixOf (ext ++ q) = true := isPrefixOf_append ext q
    rw [hpre, List.drop_left, Bool.true_and]
    exact hq
  have hmax : ∀ j, j < (a ++ ext ++ q).length + 1 →
      validExtAt ext (a ++ ext ++ q) j = true → j ≤ a.length := by
    intro j _ hvj
    by_contra hc
    have hk : a.length < j := by omega
    set k := j - a.length with hkdef
    have hdropj : (a ++ ext ++ q).drop j = (ext ++ q).drop k := by
      rw [List.append_assoc]
      have : j = a.length + k := by omega
      rw [this, ← List.drop_drop, List.drop_left]
    by_cases hksmall : k < ext.length
    · have hd : (ext ++ q).drop k = ext.drop k ++ q :=
        List.drop_append_of_le_length (by omega)
      rw [validExtAt, hdropj, hd] at hvj
      have := hstrad k (by omega) hksmall
      rw [this] at hvj
      exact absurd hvj (by simp)
    · have hm : (ext ++ q).drop k = q.drop (k - ext.length) := by
        have h5 : ext.length + (k - ext.length) = k := by omega
        conv_lhs => rw [← h5]
        rw [← List.drop_drop, List.drop_left]
      rw [validExtAt, hdropj, hm] at hvj
      have := noExtOccur_all hne hno (k - ext.length)
      rw [validExtAt] at this
      rw [this] at hvj
      exact absurd hvj (by simp)
  have hlen : a.length < (a ++ ext ++ q).length + 1 := by
    simp [List.length_append]
    omega
  exact pickLast_range_max hvalid hlen fun j hj hpj => hmax j hj hpj

theorem extAt_head_ne {c d : Char} {t r : Str} (h : (c == d) = false) :
    extAt (c :: t) (d :: r) = false := by
  simp [extAt, List.isPrefixOf, h]

theorem m3u8_straddle (q : Str) :
    ∀ k, 0 < k → k < extM3u8.length → extAt extM3u8 (extM3u8.drop k ++ q) = false := by
  intro k h1 h2
  have h2' : k < 5 := by simpa [extM3u8] using h2
  interval_cases k
  · exact extAt_head_ne (by decide)
  · exact extAt_head_ne (by decide)
  · exact extAt_head_ne (by decide)
  · exact extAt_head_ne (by decide)

theorem mpd_straddle (q : Str) :
    ∀ k, 0 < k → k < extMpd.length → extAt extMpd (extMpd.drop k ++ q) = false := by
  intro k h1 h2
  have h2' : k < 4 := by simpa [extMpd] using h2
  interval_cases k
  · exact extAt_head_ne (by decide)
  · exact extAt_head_ne (by decide)
  · exact extAt_head_ne (by decide)

theorem dropWhile_eq_drop (p : Char → Bool) :
    ∀ l : Str, l.dropWhile p = l.drop (l.takeWhile p).length := by
  intro l
  induction l with
  | nil => rfl
  | cons c t ih =>
    by_cases hc : p c = true
    · simp [List.dropWhile_cons, List.takeWhile_cons, hc, ih]
    · simp only [Bool.not_eq_true] at hc
      simp [List.dropWhile_cons, List.takeWhile_cons, hc]

/-- General form of the non-canonical HLS rewrite: on `a ++ ".m3u8" ++ q`
the rewriter drops the query `q` and appends `/HLS/128_v4.m3u8` to `a`. -/
theorem hls_rewrite {a q : Str} (hq : qTailOk q = true)
    (hno : noExtOccur extM3u8 q = true)
    (hcanon : isCanonicalHls (a ++ extM3u8 ++ q) = false) :
    ExtremeMusic.getHlsStreamUrl (some (a ++ extM3u8 ++ q)) =
      some (a ++ hlsInsert) := by
  have hsplit := @lastExtPos_split extM3u8 a q (by decide) hq hno (m3u8_straddle q)
  have htake : (a ++ extM3u8 ++ q).take a.length = a := by
    rw [List.append_assoc, List.take_left]
  simp only [ExtremeMusic.getHlsStreamUrl, hsplit, hcanon, Bool.false_eq_true,
    if_false, htake]

/-- General form of the non-canonical DASH rewrite: on `a ++ ".mpd" ++ q`
the rewriter produces `a ++ "/DASH.mpd" ++ q`, keeping the query. -/
theorem dash_rewrite {a q : Str} (hq : qTailOk q = true)
    (hno : noExtOccur extMpd q = true)
    (hcanon : isCanonicalDash (a ++ extMpd ++ q) = false) :
    ExtremeMusic.getDashStreamUrl (some (a ++ extMpd ++ q)) =
      some (a ++ dashCanonical ++ q) := by
  have hsplit := @lastExtPos_split extMpd a q (by decide) hq hno (mpd_straddle q)
  have htake : (a ++ extMpd ++ q).take a.length = a := by
    rw [List.append_assoc, List.take_left]
  have hdropq : (a ++ extMpd ++ q).drop (a.length + extMpd.length) = q := by
    rw [List.append_assoc, ← List.drop_drop, List.drop_left, List.drop_left]
  simp only [ExtremeMusic.getDashStreamUrl, hsplit, hcanon, Bool.false_eq_true,
    if_false, htake, hdropq]

/-- A URL that matches the `.mpd` test and the canonical `/DASH.mpd` test
is returned unchanged. -/
theorem dash_unchanged {s : Str} (hm : lastExtPos extMpd s ≠ none)
    (hcanon : isCanonicalDash s = true) :
    ExtremeMusic.getDashStreamUrl (some s) = some s := by
  rcases h : lastExtPos extMpd s with _ | i
  · exact absurd h hm
  · simp only [ExtremeMusic.getDashStreamUrl, h, hcanon, if_true]

/-- A canonical HLS match yields a valid `.m3u8` occurrence, so the
extension test of the rewriter also succeeds. -/
theorem canonicalHlsAt_valid {s : Str} {i : Nat}
    (h : canonicalHlsAt s i = true) : ∃ j, validExtAt extM3u8 s j = true := by
  rw [canonicalHlsAt, Bool.and_eq_true, Bool.and_eq_true] at h
  obtain ⟨-, -, h3⟩ := h
  have hdw : ((s.drop i).drop 5).dropWhile Char.isDigit =
      s.drop (i + 5 + (((s.drop i).drop 5).takeWhile Char.isDigit).length) := by
    rw [dropWhile_eq_drop, List.drop_drop, List.drop_drop]
    ring_nf
  rw [Bool.or_eq_true] at h3
  rcases h3 with h3 | h3
  · refine ⟨i + 5 + (((s.drop i).drop 5).takeWhile Char.isDigit).length, ?_⟩
    rw [validExtAt, ← hdw]
    exact h3
  · rw [vTagOk, Bool.and_eq_true, Bool.and_eq_true] at h3
    obtain ⟨-, hext⟩ := h3
    refine ⟨i + 5 + (((s.drop i).drop 5).takeWhile Char.isDigit).length + 3, ?_⟩
    rw [validExtAt, ← List.drop_drop, ← hdw]
    exact hext

theorem extAt_self {ext t : Str} (hq : qTailOk t = true) :
    extAt ext (ext ++ t) = true := by
  rw [extAt]
  have hpre : ext.isPrefixOf (ext ++ t) = true := isPrefixOf_append ext t
  rw [hpre, List.drop_left, Bool.true_and]
  exact hq

/-- Outputs of the non-canonical DASH rewrite are fixed points. -/
theorem dash_result_fixed {A t : Str} (hq : qTailOk t = true) :
    ExtremeMusic.getDashStreamUrl (some (A ++ dashCanonical ++ t)) =
      some (A ++ dashCanonical ++ t) := by
  have hvalid5 : validExtAt extMpd (A ++ dashCanonical ++ t) (A.length + 5) = true := by
    have hdrop : (A ++ dashCanonical ++ t).drop (A.length + 5) = extMpd ++ t := by
      rw [List.append_assoc, ← List.drop_drop, List.drop_left]
      rfl
    rw [validExtAt, hdrop]
    exact extAt_self hq
  have hcanon : isCanonicalDash (A ++ dashCanonical ++ t) = true := by
    rw [isCanonicalDash, List.any_eq_true]
    refine ⟨A.length, ?_, ?_⟩
    · rw [List.mem_range, List.length_append, List.length_append]
      omega
    · rw [validExtAt, List.append_assoc, List.drop_left]
      exact extAt_self hq
  exact dash_unchanged (lastExtPos_ne_none (by decide) hvalid5) hcanon

/-- The DASH rewriter is idempotent on every input. -/
theorem getDash_idem (x : Option Str) :
    ExtremeMusic.getDashStreamUrl (ExtremeMusic.getDashStreamUrl x) =
      ExtremeMusic.getDashStreamUrl x := by
  rcases x with _ | s
  · rfl
  rcases h : lastExtPos extMpd s with _ | i
  · simp [ExtremeMusic.getDashStreamUrl, h]
  by_cases hc : isCanonicalDash s = true
  · have h1 : ExtremeMusic.getDashStreamUrl (some s) = some s := by
      simp [ExtremeMusic.getDashStreamUrl, h, hc]
    rw [h1, h1]
  · have hc' : isCanonicalDash s = false := by simpa using hc
    have hvi := lastExtPos_sat h
    rw [validExtAt, extAt, Bool.and_eq_true] at hvi
    obtain ⟨-, hq⟩ := hvi
    rw [List.drop_drop] at hq
    have h2 : ExtremeMusic.getDashStreamUrl (some s) =
        some (s.take i ++ dashCanonical ++ s.drop (i + extMpd.length)) := by
      simp [ExtremeMusic.getDashStreamUrl, h, hc']
    rw [h2]
    exact dash_result_fixed hq

/-- The HLS rewriter is the identity on canonical URLs. -/
theorem hls_canonical_id {s : Str} (hcanon : isCanonicalHls s = true) :
    ExtremeMusic.getHlsStreamUrl (some s) = some s := by
  have hex : ∃ j, validExtAt extM3u8 s j = true := by
    rw [isCanonicalHls, List.any_eq_true] at hcanon
    obtain ⟨i, -, hi⟩ := hcanon
    exact canonicalHlsAt_valid hi
  obtain ⟨j, hj⟩ := hex
  have hm := @lastExtPos_ne_none extM3u8 s j (by decide) hj
  rcases h : lastExtPos extM3u8 s with _ | i
  · exact absurd h hm
  · simp only [ExtremeMusic.getHlsStreamUrl, h, hcanon, if_true]

/-! ## Lemmas about the other extractor components -/

theorem join_two {t p : Str} (ht : t ≠ []) (hp : p ≠ []) :
    LibroFm.join_nonempty [some t, some p] (str " ") = t ++ str " " ++ p := by
  simp [LibroFm.join_nonempty, ht, hp, List.intercalate, List.intersperse]

theorem ruutu_foldl_skip {hlsE : Str → List Ruutu.RFormat × Ruutu.Subs}
    {dashE : Str → List Ruutu.RFormat} :
    ∀ (l : List (Str × Option Ruutu.StreamFmt)) (st : Ruutu.StepState),
      (∀ p ∈ l, ∀ f, p.2 = some f → f.withCredentials = true) →
      l.foldl (Ruutu.streamStep hlsE dashE) st = st := by
  intro l
  induction l with
  | nil => intro st _; rfl
  | cons e t ih =>
    intro st h
    have hstep : Ruutu.streamStep hlsE dashE st e = st := by
      rcases e with ⟨n, _ | f⟩
      · rfl
      · have hf := h (n, some f) (by simp) f rfl
        simp [Ruutu.streamStep, hf]
    rw [List.foldl_cons, hstep]
    exact ih st fun p hp f hf => h p (by simp [hp]) f hf

theorem streamStep_skip_dup {hlsE : Str → List Ruutu.RFormat × Ruutu.Subs}
    {dashE : Str → List Ruutu.RFormat} {st : Ruutu.StepState} {n : Str}
    {f : Ruutu.StreamFmt} {u : Str} (hu : url_or_none f.url = some u)
    (hseen : u ∈ st.seen) :
    Ruutu.streamStep hlsE dashE st (n, some f) = st := by
  by_cases hc : f.withCredentials = true
  · simp [Ruutu.streamStep, hc]
  · simp only [Bool.not_eq_true] at hc
    simp [Ruutu.streamStep, hc, hu, hseen]

theorem streamStep_skip_badurl {hlsE : Str → List Ruutu.RFormat × Ruutu.Subs}
    {dashE : Str → List Ruutu.RFormat} {st : Ruutu.StepState} {n : Str}
    {f : Ruutu.StreamFmt} (hu : url_or_none f.url = none) :
    Ruutu.streamStep hlsE dashE st (n, some f) = st := by
  by_cases hc : f.withCredentials = true
  · simp [Ruutu.streamStep, hc]
  · simp only [Bool.not_eq_true] at hc
    simp [Ruutu.streamStep, hc, hu]

theorem streamStep_seen_mono {hlsE : Str → List Ruutu.RFormat × Ruutu.Subs}
    {dashE : Str → List Ruutu.RFormat} {st : Ruutu.StepState}
    {e : Str × Option Ruutu.StreamFmt} {u : Str} (hseen : u ∈ st.seen) :
    u ∈ (Ruutu.streamStep hlsE dashE st e).seen := by
  rcases e with ⟨n, _ | f⟩
  · exact hseen
  by_cases hc : f.withCredentials = true
  · simp [Ruutu.streamStep, hc, hseen]
  simp only [Bool.not_eq_true] at hc
  rcases hurl : url_or_none f.url with _ | v
  · simp [Ruutu.streamStep, hc, hurl, hseen]
  by_cases hv : v ∈ st.seen
  · simp [Ruutu.streamStep, hc, hurl, hv, hseen]
  · simp only [Ruutu.streamStep, hc, Bool.false_eq_true, if_false, hurl]
    split
    · exact hseen
    split
    · simp [hseen]
    split
    · simp [hseen]
    · simp [hseen]

theorem streamStep_adds_seen {hlsE : Str → List Ruutu.RFormat × Ruutu.Subs}
    {dashE : Str → List Ruutu.RFormat} {st : Ruutu.StepState} {n : Str}
    {f : Ruutu.StreamFmt} {u : Str} (hc : f.withCredentials = false)
    (hu : url_or_none f.url = some u) :
    u ∈ (Ruutu.streamStep hlsE dashE st (n, some f)).seen := by
  simp only [Ruutu.streamStep, hc, Bool.false_eq_true, if_false, hu]
  by_cases hv : u ∈ st.seen
  · simp [hv]
  · have hvb : st.seen.contains u = false := by simpa using hv
    simp only [hvb, Bool.false_eq_true, if_false]
    split
    · simp
    split
    · simp
    · simp

theorem ruutu_foldl_seen_mono {hlsE : Str → List Ruutu.RFormat × Ruutu.Subs}
    {dashE : Str → List Ruutu.RFormat} {u : Str} :
    ∀ (l : List (Str × Option Ruutu.StreamFmt)) (st : Ruutu.StepState),
      u ∈ st.seen → u ∈ (l.foldl (Ruutu.streamStep hlsE dashE) st).seen := by
  intro l
  induction l with
  | nil => intro st h; exact h
  | cons e t ih =>
    intro st h
    rw [List.foldl_cons]
    exact ih _ (streamStep_seen_mono h)

/-! ## The claims -/

/-- C1, counterexample: the claim says any query string of the input is
preserved, but the `re.sub` replacement `\1/HLS/128_v4.m3u8` never
references group 2, so on the non-canonical URL
`https://x/a.m3u8?token=1` the rewriter returns
`https://x/a/HLS/128_v4.m3u8` and not the claimed
`https://x/a/HLS/128_v4.m3u8?token=1`. -/
theorem claim_C1_counterexample :
    isCanonicalHls (str "https://x/a.m3u8?token=1") = false ∧
    ExtremeMusic.getHlsStreamUrl (some (str "https://x/a.m3u8?token=1")) =
      some (str "https://x/a/HLS/128_v4.m3u8") ∧
    some (str "https://x/a/HLS/128_v4.m3u8") ≠
      some (str "https://x/a/HLS/128_v4.m3u8?token=1") :=
  ⟨by decide, by decide, by decide⟩

/-- C1, amended: for every URL of the shape `a ++ ".m3u8" ++ q` with `q`
empty or a query string (not itself containing a `.m3u8` occurrence)
that does not already match the canonical `/HLS/<digits>[_v<digit>].m3u8`
shape, the HLS normalizer returns the URL with `/HLS/128_v4` appended
before the `.m3u8` extension and the query string removed. -/
theorem claim_C1 (a q : Str) (hq : qTailOk q = true)
    (hno : noExtOccur extM3u8 q = true)
    (hcanon : isCanonicalHls (a ++ extM3u8 ++ q) = false) :
    ExtremeMusic.getHlsStreamUrl (some (a ++ extM3u8 ++ q)) =
      some (a ++ hlsInsert) :=
  hls_rewrite hq hno hcanon

/-- C1, witness: the amended statement evaluated on
`https://x/a.m3u8?token=1`. -/
theorem claim_C1_witness :
    qTailOk (str "?token=1") = true ∧
    noExtOccur extM3u8 (str "?token=1") = true ∧
    isCanonicalHls (str "https://x/a" ++ extM3u8 ++ str "?token=1") = false ∧
    ExtremeMusic.getHlsStreamUrl
        (some (str "https://x/a" ++ extM3u8 ++ str "?token=1")) =
      some (str "https://x/a" ++ hlsInsert) :=
  ⟨by decide, by decide, by decide,
   claim_C1 (str "https://x/a") (str "?token=1") (by decide) (by decide) (by decide)⟩

/-- C2, counterexample: the claim says the trailing path segment is
replaced by `/DASH.mpd`, which on `https://x/a/foo.mpd` would give
`https://x/a/DASH.mpd`; the code instead keeps the segment and inserts
`/DASH` before the extension, giving `https://x/a/foo/DASH.mpd`. -/
theorem claim_C2_counterexample :
    ExtremeMusic.getDashStreamUrl (some (str "https://x/a/foo.mpd")) =
      some (str "https://x/a/foo/DASH.mpd") ∧
    some (str "https://x/a/foo/DASH.mpd") ≠ some (str "https://x/a/DASH.mpd") :=
  ⟨by decide, by decide⟩

/-- C2, amended: for every URL ending in `.mpd` plus an optional query,
the DASH normalizer returns the input unchanged when it already matches
`/DASH.mpd` plus optional query, and otherwise (for a URL of the shape
`a ++ ".mpd" ++ q` with `q` empty or a query not containing `.mpd`)
replaces the `.mpd` extension by `/DASH.mpd`, preserving the query. -/
theorem claim_C2 (s a q : Str) (hq : qTailOk q = true)
    (hno : noExtOccur extMpd q = true) :
    (lastExtPos extMpd s ≠ none → isCanonicalDash s = true →
      ExtremeMusic.getDashStreamUrl (some s) = some s) ∧
    (isCanonicalDash (a ++ extMpd ++ q) = false →
      ExtremeMusic.getDashStreamUrl (some (a ++ extMpd ++ q)) =
        some (a ++ dashCanonical ++ q)) :=
  ⟨fun hm hc => dash_unchanged hm hc, fun hc => dash_rewrite hq hno hc⟩

/-- C2, witness: the amended statement evaluated on
`https://x/a/DASH.mpd` (unchanged branch) and on
`https://x/a/foo.mpd?t=2` (rewrite branch). -/
theorem claim_C2_witness :
    ExtremeMusic.getDashStreamUrl (some (str "https://x/a/DASH.mpd")) =
      some (str "https://x/a/DASH.mpd") ∧
    ExtremeMusic.getDashStreamUrl
        (some (str "https://x/a/foo" ++ extMpd ++ str "?t=2")) =
      some (str "https://x/a/foo" ++ dashCanonical ++ str "?t=2") :=
  ⟨(claim_C2 (str "https://x/a/DASH.mpd") (str "https://x/a/foo") (str "?t=2")
      (by decide) (by decide)).1 (by decide) (by decide),
   (claim_C2 (str "https://x/a/DASH.mpd") (str "https://x/a/foo") (str "?t=2")
      (by decide) (by decide)).2 (by decide)⟩

/-- C5: the HLS normalizer is the identity on every URL already matching
the canonical `/HLS/<n>[_v<d>].m3u8` shape (hence idempotent there), and
the DASH normalizer is idempotent on every input, `None` propagating. -/
theorem claim_C5 :
    (∀ u : Str, isCanonicalHls u = true →
      ExtremeMusic.getHlsStreamUrl (some u) = some u ∧
      ExtremeMusic.getHlsStreamUrl (ExtremeMusic.getHlsStreamUrl (some u)) =
        ExtremeMusic.getHlsStreamUrl (some u)) ∧
    (∀ x : Option Str,
      ExtremeMusic.getDashStreamUrl (ExtremeMusic.getDashStreamUrl x) =
        ExtremeMusic.getDashStreamUrl x) := by
  refine ⟨fun u hc => ?_, getDash_idem⟩
  have h1 := hls_canonical_id hc
  exact ⟨h1, by rw [h1, h1]⟩

/-- C5, witness: identity on the canonical `https://x/HLS/128_v4.m3u8`
and idempotence on `https://x/b.mpd`. -/
theorem claim_C5_witness :
    ExtremeMusic.getHlsStreamUrl (some (str "https://x/HLS/128_v4.m3u8")) =
      some (str "https://x/HLS/128_v4.m3u8") ∧
    ExtremeMusic.getDashStreamUrl
        (ExtremeMusic.getDashStreamUrl (some (str "https://x/b.mpd"))) =
      ExtremeMusic.getDashStreamUrl (some (str "https://x/b.mpd")) :=
  ⟨(claim_C5.1 (str "https://x/HLS/128_v4.m3u8") (by decide)).1,
   claim_C5.2 (some (str "https://x/b.mpd"))⟩

/-- C7: on the image map with one `cover` descriptor of width 300 with a
primary and a WebP URL, the thumbnail collector returns exactly the two
thumbnails `cover_300` and `cover_300_webp`, in order, carrying the
respective URLs. -/
theorem claim_C7 :
    (ExtremeMusic.collect_images
        ⟨[(str "cover",
           [⟨some 300, some (str "https://x/a.jpg"), some (str "https://x/a.webp")⟩])],
         none, none, none⟩).map ExtremeMusic.Thumbnail.id =
      [str "cover_300", str "cover_300_webp"] ∧
    (ExtremeMusic.collect_images
        ⟨[(str "cover",
           [⟨some 300, some (str "https://x/a.jpg"), some (str "https://x/a.webp")⟩])],
         none, none, none⟩).map ExtremeMusic.Thumbnail.url =
      [some (str "https://x/a.jpg"), some (str "https://x/a.webp")] :=
  ⟨by decide, by decide⟩

/-- C9: every thumbnail emitted by the map-shaped (primary) branch of the
thumbnail collector has its `height` equal to its `width` (both are read
from the descriptor's `width` key), so height is present exactly when
width is. -/
theorem claim_C9 (info : ExtremeMusic.ImageInfo) (t : ExtremeMusic.Thumbnail)
    (ht : t ∈ ExtremeMusic.primaryThumbnails info) :
    t.height = t.width ∧ (t.height = none ↔ t.width = none) := by
  have hhw : t.height = t.width := by
    simp only [ExtremeMusic.primaryThumbnails, List.mem_flatMap, List.mem_cons,
      List.mem_singleton] at ht
    obtain ⟨p, -, img, -, ht⟩ := ht
    rcases ht with rfl | rfl | h
    · rfl
    · rfl
    · exact absurd h (by simp)
  exact ⟨hhw, by rw [hhw]⟩

/-- C9, witness: the property evaluated on the `cover_300` thumbnail of
the concrete image map of C7. -/
theorem claim_C9_witness :
    ((⟨str "cover_300", some (str "https://x/a.jpg"), some 300, some 300⟩ :
        ExtremeMusic.Thumbnail) ∈
      ExtremeMusic.primaryThumbnails
        ⟨[(str "cover",
           [⟨some 300, some (str "https://x/a.jpg"), some (str "https://x/a.webp")⟩])],
         none, none, none⟩) ∧
    ((⟨str "cover_300", some (str "https://x/a.jpg"), some 300, some 300⟩ :
        ExtremeMusic.Thumbnail).height =
      (⟨str "cover_300", some (str "https://x/a.jpg"), some 300, some 300⟩ :
        ExtremeMusic.Thumbnail).width ∧
     ((⟨str "cover_300", some (str "https://x/a.jpg"), some 300, some 300⟩ :
        ExtremeMusic.Thumbnail).height = none ↔
      (⟨str "cover_300", some (str "https://x/a.jpg"), some 300, some 300⟩ :
        ExtremeMusic.Thumbnail).width = none)) :=
  ⟨by decide,
   claim_C9
     ⟨[(str "cover",
        [⟨some 300, some (str "https://x/a.jpg"), some (str "https://x/a.webp")⟩])],
      none, none, none⟩
     ⟨str "cover_300", some (str "https://x/a.jpg"), some 300, some 300⟩
     (by decide)⟩

/-- C3: an audiobook manifest with exactly one part collapses to a single
item whose id is the audiobook's ISBN (not `<isbn>-1`) and whose title
is the parent title; with two parts the result is a playlist of exactly
two entries with ids `<isbn>-1` and `<isbn>-2` and titles suffixed with
` (Part 1)` and ` (Part 2)`. -/
theorem claim_C3 (isbn title : Str) (p1 p2 : LibroFm.Part) (ht : title ≠ []) :
    LibroFm.libro_real_extract isbn title [p1] =
      LibroFm.LibroResult.single ⟨isbn, title, LibroFm.process_part p1⟩ ∧
    LibroFm.libro_real_extract isbn title [p1, p2] =
      LibroFm.LibroResult.multi
        [⟨isbn ++ str "-1", title ++ str " (Part 1)", LibroFm.process_part p1⟩,
         ⟨isbn ++ str "-2", title ++ str " (Part 2)", LibroFm.process_part p2⟩] := by
  have hj1 : LibroFm.join_nonempty
      [some title, some (str "(Part " ++ natStr 1 ++ str ")")] (str " ") =
      title ++ str " (Part 1)" := by
    rw [join_two ht (by decide), List.append_assoc,
      show str " " ++ (str "(Part " ++ natStr 1 ++ str ")") = str " (Part 1)" from by decide]
  have hj2 : LibroFm.join_nonempty
      [some title, some (str "(Part " ++ natStr 2 ++ str ")")] (str " ") =
      title ++ str " (Part 2)" := by
    rw [join_two ht (by decide), List.append_assoc,
      show str " " ++ (str "(Part " ++ natStr 2 ++ str ")") = str " (Part 2)" from by decide]
  have hid1 : isbn ++ str "-" ++ natStr 1 = isbn ++ str "-1" := by
    rw [List.append_assoc, show str "-" ++ natStr 1 = str "-1" from by decide]
  have hid2 : isbn ++ str "-" ++ natStr 2 = isbn ++ str "-2" := by
    rw [List.append_assoc, show str "-" ++ natStr 2 = str "-2" from by decide]
  have hentry1 : LibroFm.mkEntry isbn title 1 p1 =
      ⟨isbn ++ str "-1", title ++ str " (Part 1)", LibroFm.process_part p1⟩ := by
    unfold LibroFm.mkEntry
    rw [hid1, hj1]
  have hentry2 : LibroFm.mkEntry isbn title 2 p2 =
      ⟨isbn ++ str "-2", title ++ str " (Part 2)", LibroFm.process_part p2⟩ := by
    unfold LibroFm.mkEntry
    rw [hid2, hj2]
  constructor
  · rfl
  · show LibroFm.LibroResult.multi
        [LibroFm.mkEntry isbn title 1 p1, LibroFm.mkEntry isbn title 2 p2] = _
    rw [hentry1, hentry2]

/-- C3, witness: the collapse on a one-part manifest and the two-part
playlist, evaluated on concrete data. -/
theorem claim_C3_witness :
    LibroFm.libro_real_extract (str "9781250761170") (str "The Design")
        [⟨str "https://x/p1.zip", 10⟩] =
      LibroFm.LibroResult.single
        ⟨str "9781250761170", str "The Design",
         LibroFm.process_part ⟨str "https://x/p1.zip", 10⟩⟩ ∧
    LibroFm.libro_real_extract (str "9781250761170") (str "The Design")
        [⟨str "https://x/p1.zip", 10⟩, ⟨str "https://x/p2.zip", 20⟩] =
      LibroFm.LibroResult.multi
        [⟨str "9781250761170" ++ str "-1", str "The Design" ++ str " (Part 1)",
          LibroFm.process_part ⟨str "https://x/p1.zip", 10⟩⟩,
         ⟨str "9781250761170" ++ str "-2", str "The Design" ++ str " (Part 2)",
          LibroFm.process_part ⟨str "https://x/p2.zip", 20⟩⟩] :=
  claim_C3 (str "9781250761170") (str "The Design")
    ⟨str "https://x/p1.zip", 10⟩ ⟨str "https://x/p2.zip", 20⟩ (by decide)

/-- C4: when every stream-variant entry is credential-flagged and the DRM
flag is set, format extraction returns zero formats and the extractor
raises the dedicated DRM-protected signal rather than crashing or
reporting a generic empty-formats error; a credential-flagged variant
never changes the accumulated state. -/
theorem claim_C4 (hlsE : Str → Str → List Ruutu.RFormat × Ruutu.Subs)
    (dashE : Str → Str → List Ruutu.RFormat) (video_id : Str)
    (m : Ruutu.RMedia) (runtime ec : Option ℚ) (ts : List Int)
    (hcred : ∀ p ∈ m.streamUrls, ∀ f, p.2 = some f → f.withCredentials = true) :
    (Ruutu.extract_formats_and_subtitles hlsE dashE video_id m).1 = [] ∧
    Ruutu.ruutu_real_extract hlsE dashE video_id ⟨m, true, runtime, ec, ts⟩ =
      Except.error (Ruutu.RuutuError.drmProtected video_id) ∧
    (∀ (st : Ruutu.StepState) (n : Str) (f : Ruutu.StreamFmt),
      f.withCredentials = true →
      Ruutu.streamStep (fun u => hlsE u video_id) (fun u => dashE u video_id)
        st (n, some f) = st) := by
  have hfold := @ruutu_foldl_skip (fun u => hlsE u video_id)
    (fun u => dashE u video_id) m.streamUrls ⟨[], [], []⟩ hcred
  refine ⟨?_, ?_, ?_⟩
  · simp [Ruutu.extract_formats_and_subtitles, hfold]
  · simp [Ruutu.ruutu_real_extract, Ruutu.extract_formats_and_subtitles, hfold]
  · intro st n f hf
    simp [Ruutu.streamStep, hf]

/-- C4, witness: two credential-flagged variants with DRM enabled yield
zero formats and the DRM-protected signal. -/
theorem claim_C4_witness :
    (Ruutu.extract_formats_and_subtitles (fun _ _ => ([], [])) (fun _ _ => [])
        (str "1")
        ⟨[(str "webHls", some ⟨true, some (str "https://x/v.m3u8")⟩),
          (str "dash", some ⟨true, some (str "https://x/v.mpd")⟩)], []⟩).1 = [] ∧
    Ruutu.ruutu_real_extract (fun _ _ => ([], [])) (fun _ _ => []) (str "1")
        ⟨⟨[(str "webHls", some ⟨true, some (str "https://x/v.m3u8")⟩),
           (str "dash", some ⟨true, some (str "https://x/v.mpd")⟩)], []⟩,
         true, none, none, []⟩ =
      Except.error (Ruutu.RuutuError.drmProtected (str "1")) :=
  ⟨(claim_C4 (fun _ _ => ([], [])) (fun _ _ => []) (str "1")
      ⟨[(str "webHls", some ⟨true, some (str "https://x/v.m3u8")⟩),
        (str "dash", some ⟨true, some (str "https://x/v.mpd")⟩)], []⟩
      none none []
      (by
        intro p hp f hf
        rcases List.mem_cons.mp hp with rfl | hp2
        · cases hf; rfl
        rcases List.mem_cons.mp hp2 with rfl | hp3
        · cases hf; rfl
        · simp at hp3)).1,
   (claim_C4 (fun _ _ => ([], [])) (fun _ _ => []) (str "1")
      ⟨[(str "webHls", some ⟨true, some (str "https://x/v.m3u8")⟩),
        (str "dash", some ⟨true, some (str "https://x/v.mpd")⟩)], []⟩
      none none []
      (by
        intro p hp f hf
        rcases List.mem_cons.mp hp with rfl | hp2
        · cases hf; rfl
        rcases List.mem_cons.mp hp2 with rfl | hp3
        · cases hf; rfl
        · simp at hp3)).2.1⟩

/-- C8: the chapter list is empty whenever the duration or the
end-credits offset is unknown, and is the single chapter from the
end-credits offset to the duration titled "End Credits" when both are
known; in particular duration 114 with no end-credits offset gives no
chapters, and with offset 100 gives exactly that chapter. -/
theorem claim_C8 :
    (∀ d e : Option ℚ, d = none ∨ e = none → Ruutu.mkChapters d e = []) ∧
    (∀ dv ev : ℚ, Ruutu.mkChapters (some dv) (some ev) =
      [⟨ev, dv, str "End Credits"⟩]) ∧
    Ruutu.ruutu_real_extract (fun _ _ => ([], [])) (fun _ _ => []) (str "2058907")
        ⟨⟨[], []⟩, false, some 114, none, []⟩ =
      Except.ok ⟨str "2058907", some 114, [], none, [], []⟩ ∧
    Ruutu.ruutu_real_extract (fun _ _ => ([], [])) (fun _ _ => []) (str "2058907")
        ⟨⟨[], []⟩, false, some 114, some 100, []⟩ =
      Except.ok ⟨str "2058907", some 114, [⟨100, 114, str "End Credits"⟩],
        none, [], []⟩ := by
  refine ⟨?_, ?_, by decide, by decide⟩
  · intro d e h
    rcases h with rfl | rfl
    · rfl
    · cases d <;> rfl
  · intro dv ev
    rfl

/-- C8, witness: the general chapter rules evaluated at duration 114. -/
theorem claim_C8_witness :
    Ruutu.mkChapters (some 114) none = [] ∧
    Ruutu.mkChapters (some 114) (some 100) =
      [⟨100, 114, str "End Credits"⟩] :=
  ⟨claim_C8.1 (some 114) none (Or.inr rfl), claim_C8.2.1 114 100⟩

/-- C10, counterexample: the claim that for any two variants carrying
the same URL only the first-enumerated one contributes formats is false
of the code: a credential-flagged variant is skipped before its URL
enters the seen set, so on the map `http` (flagged, URL u) followed by
`audioMp3` (same URL u) the second-enumerated variant contributes its
direct format while the first contributes none. -/
theorem claim_C10_counterexample :
    (Ruutu.extract_formats_and_subtitles (fun _ _ => ([], [])) (fun _ _ => [])
        (str "1")
        ⟨[(str "http", some ⟨true, some (str "https://x/v.mp4")⟩),
          (str "audioMp3", some ⟨false, some (str "https://x/v.mp4")⟩)], []⟩).1 =
      [Ruutu.directFormat (str "audioMp3") (str "https://x/v.mp4")] ∧
    (Ruutu.extract_formats_and_subtitles (fun _ _ => ([], [])) (fun _ _ => [])
        (str "1")
        ⟨[(str "http", some ⟨true, some (str "https://x/v.mp4")⟩)], []⟩).1 = [] ∧
    [Ruutu.directFormat (str "audioMp3") (str "https://x/v.mp4")] ≠
      ([] : List Ruutu.RFormat) :=
  ⟨by decide, by decide, by decide⟩

/-- C10, amended: stream-variant URLs are deduplicated across the whole
variant map among the variants actually processed: appending a variant
whose URL was already carried by an earlier variant that is not
credential-flagged and has a valid URL leaves the extraction result
unchanged, and a variant with a missing or invalid URL contributes
nothing.  (A credential-flagged carrier does not record its URL, so a
later variant with the same URL still contributes.) -/
theorem claim_C10 (hlsE : Str → Str → List Ruutu.RFormat × Ruutu.Subs)
    (dashE : Str → Str → List Ruutu.RFormat) (video_id : Str)
    (subsL : List Ruutu.MediaSub) (l1 l2 : List (Str × Option Ruutu.StreamFmt))
    (n1 n2 : Str) (f1 f2 : Ruutu.StreamFmt) (u : Str)
    (h1c : f1.withCredentials = false) (h1u : url_or_none f1.url = some u)
    (h2u : url_or_none f2.url = some u) :
    Ruutu.extract_formats_and_subtitles hlsE dashE video_id
        ⟨(l1 ++ (n1, some f1) :: l2) ++ [(n2, some f2)], subsL⟩ =
      Ruutu.extract_formats_and_subtitles hlsE dashE video_id
        ⟨l1 ++ (n1, some f1) :: l2, subsL⟩ ∧
    (∀ (l : List (Str × Option Ruutu.StreamFmt)) (n : Str) (f : Ruutu.StreamFmt),
      url_or_none f.url = none →
      Ruutu.extract_formats_and_subtitles hlsE dashE video_id
          ⟨l ++ [(n, some f)], subsL⟩ =
        Ruutu.extract_formats_and_subtitles hlsE dashE video_id ⟨l, subsL⟩) := by
  constructor
  · have hseen : u ∈ ((l1 ++ (n1, some f1) :: l2).foldl
        (Ruutu.streamStep (fun v => hlsE v video_id) (fun v => dashE v video_id))
        ⟨[], [], []⟩).seen := by
      rw [List.foldl_append, List.foldl_cons]
      exact ruutu_foldl_seen_mono l2 _ (streamStep_adds_seen h1c h1u)
    have hfold : ((l1 ++ (n1, some f1) :: l2) ++ [(n2, some f2)]).foldl
        (Ruutu.streamStep (fun v => hlsE v video_id) (fun v => dashE v video_id))
        ⟨[], [], []⟩ =
        (l1 ++ (n1, some f1) :: l2).foldl
        (Ruutu.streamStep (fun v => hlsE v video_id) (fun v => dashE v video_id))
        ⟨[], [], []⟩ := by
      rw [List.foldl_append _ _ (l1 ++ (n1, some f1) :: l2) [(n2, some f2)],
        List.foldl_cons, List.foldl_nil]
      exact streamStep_skip_dup h2u hseen
    simp only [Ruutu.extract_formats_and_subtitles]
    rw [hfold]
  · intro l n f hf
    have hfold : (l ++ [(n, some f)]).foldl
        (Ruutu.streamStep (fun v => hlsE v video_id) (fun v => dashE v video_id))
        ⟨[], [], []⟩ =
        l.foldl
        (Ruutu.streamStep (fun v => hlsE v video_id) (fun v => dashE v video_id))
        ⟨[], [], []⟩ := by
      rw [List.foldl_append, List.foldl_cons, List.foldl_nil]
      exact streamStep_skip_badurl hf
    simp only [Ruutu.extract_formats_and_subtitles]
    rw [hfold]

/-- C10, witness: a duplicate `dash` variant after a `webHls` variant
with the same URL changes nothing, and an invalid-URL variant changes
nothing. -/
theorem claim_C10_witness :
    Ruutu.extract_formats_and_subtitles (fun _ _ => ([], [])) (fun _ _ => [])
        (str "1")
        ⟨([] ++ (str "webHls", some ⟨false, some (str "https://x/v.m3u8")⟩) :: []) ++
           [(str "dash", some ⟨false, some (str "https://x/v.m3u8")⟩)], []⟩ =
      Ruutu.extract_formats_and_subtitles (fun _ _ => ([], [])) (fun _ _ => [])
        (str "1")
        ⟨[] ++ (str "webHls", some ⟨false, some (str "https://x/v.m3u8")⟩) :: [], []⟩ ∧
    Ruutu.extract_formats_and_subtitles (fun _ _ => ([], [])) (fun _ _ => [])
        (str "1")
        ⟨[(str "webHls", some ⟨false, some (str "https://x/v.m3u8")⟩)] ++
           [(str "http", some ⟨false, some (str "no-url")⟩)], []⟩ =
      Ruutu.extract_formats_and_subtitles (fun _ _ => ([], [])) (fun _ _ => [])
        (str "1")
        ⟨[(str "webHls", some ⟨false, some (str "https://x/v.m3u8")⟩)], []⟩ :=
  ⟨(claim_C10 (fun _ _ => ([], [])) (fun _ _ => []) (str "1") [] [] []
      (str "webHls") (str "dash")
      ⟨false, some (str "https://x/v.m3u8")⟩ ⟨false, some (str "https://x/v.m3u8")⟩
      (str "https://x/v.m3u8") (by decide) (by decide) (by decide)).1,
   (claim_C10 (fun _ _ => ([], [])) (fun _ _ => []) (str "1") [] [] []
      (str "webHls") (str "dash")
      ⟨false, some (str "https://x/v.m3u8")⟩ ⟨false, some (str "https://x/v.m3u8")⟩
      (str "https://x/v.m3u8") (by decide) (by decide) (by decide)).2
     [(str "webHls", some ⟨false, some (str "https://x/v.m3u8")⟩)]
     (str "http") ⟨false, some (str "no-url")⟩ (by decide)⟩

/-- C6: an album with one track carrying two sound versions yields a
playlist of exactly two entries with composite ids
`<trackId>-<soundId1>` and `<trackId>-<soundId2>`, titles suffixed with
the version names in parentheses, and formats resolved independently
from each version's own asset descriptor. -/
theorem claim_C6 (mpdE m3u8E : ExtremeMusic.Expander) (album_id : Str)
    (meta : ExtremeMusic.AlbumMeta) (tid sid1 sid2 : Int) (T vn1 vn2 : Str)
    (d1 d2 : Option ℚ) (a1 a2 : ExtremeMusic.Asset)
    (imgs : ExtremeMusic.ImageInfo) (kw ar co ge : List Str)
    (hsid : sid1 ≠ sid2) :
    ExtremeMusic.album_real_extract mpdE m3u8E album_id
        (some ⟨[⟨sid1, vn1, d1, some a1⟩, ⟨sid2, vn2, d2, some a2⟩],
               [⟨some tid, some T, imgs, kw, ar, co, ge, [sid1, sid2]⟩], meta⟩) =
      Except.ok
        ⟨album_id, meta.title, meta.description,
         ExtremeMusic.collect_images meta.imageInfo,
         [⟨intStr tid ++ str "-" ++ intStr sid1,
           T ++ str " (" ++ vn1 ++ str ")", T ++ str " (" ++ vn1 ++ str ")",
           ExtremeMusic.collect_images imgs, kw, ar, co, ge, d1,
           some (ExtremeMusic.extract_asset_formats mpdE m3u8E
             (intStr tid ++ str "-" ++ intStr sid1) a1)⟩,
          ⟨intStr tid ++ str "-" ++ intStr sid2,
           T ++ str " (" ++ vn2 ++ str ")", T ++ str " (" ++ vn2 ++ str ")",
           ExtremeMusic.collect_images imgs, kw, ar, co, ge, d2,
           some (ExtremeMusic.extract_asset_formats mpdE m3u8E
             (intStr tid ++ str "-" ++ intStr sid2) a2)⟩]⟩ := by
  have hne1 : sid2 ≠ sid1 := Ne.symm hsid
  simp [ExtremeMusic.album_real_extract, ExtremeMusic.mapExcept,
    ExtremeMusic.mkSoundEntry, ExtremeMusic.lookupSound, hsid, hne1]

/-- C6, witness: the two-version album evaluated on concrete data. -/
theorem claim_C6_witness :
    ExtremeMusic.album_real_extract (fun _ _ => []) (fun _ _ => []) (str "6778")
        (some ⟨[⟨7, str "Main", some 30, some ⟨some (str "https://x/p.mp3"), none, none⟩⟩,
                ⟨8, str "Alt", none, some ⟨none, none, none⟩⟩],
               [⟨some 42, some (str "T"), ⟨[], none, none, none⟩, [], [], [], [], [7, 8]⟩],
               ⟨some (str "Album"), none, ⟨[], none, none, none⟩⟩⟩) =
      Except.ok
        ⟨str "6778",
         (⟨some (str "Album"), none, ⟨[], none, none, none⟩⟩ :
            ExtremeMusic.AlbumMeta).title,
         (⟨some (str "Album"), none, ⟨[], none, none, none⟩⟩ :
            ExtremeMusic.AlbumMeta).description,
         ExtremeMusic.collect_images
           (⟨some (str "Album"), none, ⟨[], none, none, none⟩⟩ :
              ExtremeMusic.AlbumMeta).imageInfo,
         [⟨intStr 42 ++ str "-" ++ intStr 7,
           str "T" ++ str " (" ++ str "Main" ++ str ")",
           str "T" ++ str " (" ++ str "Main" ++ str ")",
           ExtremeMusic.collect_images ⟨[], none, none, none⟩, [], [], [], [], some 30,
           some (ExtremeMusic.extract_asset_formats (fun _ _ => []) (fun _ _ => [])
             (intStr 42 ++ str "-" ++ intStr 7)
             ⟨some (str "https://x/p.mp3"), none, none⟩)⟩,
          ⟨intStr 42 ++ str "-" ++ intStr 8,
           str "T" ++ str " (" ++ str "Alt" ++ str ")",
           str "T" ++ str " (" ++ str "Alt" ++ str ")",
           ExtremeMusic.collect_images ⟨[], none, none, none⟩, [], [], [], [], none,
           some (ExtremeMusic.extract_asset_formats (fun _ _ => []) (fun _ _ => [])
             (intStr 42 ++ str "-" ++ intStr 8) ⟨none, none, none⟩)⟩]⟩ :=
  claim_C6 (fun _ _ => []) (fun _ _ => []) (str "6778")
    ⟨some (str "Album"), none, ⟨[], none, none, none⟩⟩ 42 7 8
    (str "T") (str "Main") (str "Alt") (some 30) none
    ⟨some (str "https://x/p.mp3"), none, none⟩ ⟨none, none, none⟩
    ⟨[], none, none, none⟩ [] [] [] [] (by decide)

end YtDlp
